import Mathlib

/-!
Verification development for the amass scope membership engine and the
graph-based name-to-address resolver.

The Go sources are shallowly embedded as Lean definitions:

* `engine/sessions/scope/scope.go` — the `IsAssetInScope` dispatch, the
  `isBadField` noisy-field test.  The per-kind matchers
  (`matchesDomain`, `matchesOrg`, ...) are not part of the sources under
  verification, so they appear as abstract function fields of the `Scope`
  structure; `IsAssetInScope` is embedded over those fields exactly as the
  Go type switch composes them.
* `utils` (NamesToAddrs and friends) — the resolver pipeline.  The graph
  store is reached only through four query operations (the raw SRV/NS/MX
  row query, the relation query for direct a/aaaa records, the asset query
  discovering cname sources, and the per-name recursive cname-chain row
  query); the resolver is embedded as a function of those four operations.
  The SQL text built by the Go code is embedded by its relational
  semantics over a table of assets and a table of time-stamped relations;
  every `last_seen > since` conjunct of the SQL is applied as a filter on
  the relations table (`liveRels`), which is equivalent to applying the
  same conjunctive condition inside each join.
* the scrape plugins (`bing.check` / `rapidDNS.check`) — the scope gate
  they share is embedded as `checkOutcome`; the discovery actions behind
  the gate (lookup / query / store / process) are abstracted into the
  single outcome `CheckOutcome.discovery`.

`netip.ParseAddr` is Go standard library code, so it is kept abstract: the
resolver takes a `parse : String → Option Fam` argument, where `Fam`
records the address family of a successfully parsed address (a Go
`netip.Addr` returned with a nil error always satisfies `Is4` or `Is6`,
which is why `Fam` has exactly those two constructors; `Is4` false and
`Is6` true is the 16-byte form, matching the Go tagging branch order).
-/

namespace Amass

/-! ## Asset model for the scope engine

One constructor per asset kind handled by the type switches in
`scope.go`, carrying exactly the fields those switches read, plus
`other` for every asset kind the switch does not handle (the Go switch
has no default branch, so such assets leave `match`/`accuracy` at their
zero values). -/

inductive OAMAsset where
  | fqdn (name : String)
  | email (emailDomain : String)
  | ipAddress (payload : String)
  | netblock (cidr : String) (ntype : String)
  | autnum (number : Int)
  | domainRecord (recDomain : String) (orgName : String)
  | ipnetRecord (cidr : String) (ntype : String)
  | autnumRecord (number : Int) (orgName : String)
  | tlsCert (subjectCommonName : String)
  | url (host : String)
  | organization (orgName : String)
  | location (payload : String)
  | fingerprint (payload : String)
  | other (kindTag : String)
  deriving DecidableEq, Repr

/-- The scope registry.  The concrete matchers live outside the sources
under verification, so they are abstract function fields; each takes the
projection the Go dispatch passes to it. -/
structure Scope where
  matchesDomain : String → Option OAMAsset × Int
  addressInScope : String → Option OAMAsset × Int
  matchesNetblock : String → String → Option OAMAsset × Int
  matchesAutonomousSystem : Int → Option OAMAsset × Int
  matchesOrg : String → Int → Option OAMAsset × Int
  matchesLocation : String → Int → Option OAMAsset × Int
  matchesFin : String → Option OAMAsset × Int

/-- Embedding of `Scope.IsAssetInScope` (scope.go lines 63-103).  The
`domainRecord` and `autnumRecord` branches mirror the Go fallback:
`if match == nil || accuracy == 0 { match, accuracy = s.matchesOrg(...) }`. -/
def IsAssetInScope (s : Scope) (a : OAMAsset) (conf : Int) : Option OAMAsset × Int :=
  match a with
  | OAMAsset.fqdn n => s.matchesDomain n
  | OAMAsset.email d => s.matchesDomain d
  | OAMAsset.ipAddress x => s.addressInScope x
  | OAMAsset.netblock c t => s.matchesNetblock c t
  | OAMAsset.autnum num => s.matchesAutonomousSystem num
  | OAMAsset.domainRecord d o =>
      let r := s.matchesDomain d
      if r.1.isNone || r.2 == 0 then s.matchesOrg o conf else r
  | OAMAsset.ipnetRecord c t => s.matchesNetblock c t
  | OAMAsset.autnumRecord num o =>
      let r := s.matchesAutonomousSystem num
      if r.1.isNone || r.2 == 0 then s.matchesOrg o conf else r
  | OAMAsset.tlsCert cn => s.matchesDomain cn
  | OAMAsset.url h => s.matchesDomain h
  | OAMAsset.organization o => s.matchesOrg o conf
  | OAMAsset.location d => s.matchesLocation d conf
  | OAMAsset.fingerprint v => s.matchesFin v
  | OAMAsset.other _ => (none, 0)

/-- A matcher result that actually reports a match: a non-nil matched
asset together with a non-zero accuracy. -/
def properMatch (r : Option OAMAsset × Int) : Prop :=
  r.1.isSome = true ∧ r.2 ≠ 0

/-! ## isBadField (scope.go lines 105-114)

`strings.Contains` is embedded by an explicit character-list scan. -/

/-- Does the first character list start the second one. -/
def charsLead : List Char → List Char → Bool
  | [], _ => true
  | _ :: _, [] => false
  | a :: as, b :: bs => a == b && charsLead as bs

/-- Does the first character list occur contiguously inside the second. -/
def charsWithin : List Char → List Char → Bool
  | p, [] => charsLead p []
  | p, c :: rest => charsLead p (c :: rest) || charsWithin p rest

/-- Embedding of Go `strings.Contains s pat`. -/
def strContains (s pat : String) : Bool :=
  charsWithin pat.data s.data

/-- The fixed noisy-substring list of `isBadField`. -/
def badstrs : List String :=
  ["registration", "registry", "redact", "private", "privacy",
   "available", "domain", "proxy", "liability"]

/-- Embedding of `Scope.isBadField` (scope.go lines 105-114). -/
def isBadField (field : String) : Bool :=
  badstrs.any (fun bad => strContains field bad)

/-- Modelled from the spec: the organization/location matchers
(`matchesOrg`, `matchesLocation`, which are not under the verified
sources) perform partial matching "only over fields that are not flagged
as noisy"; this is the field list they are allowed to consult. -/
def matchingFields (fields : List String) : List String :=
  fields.filter (fun f => !isBadField f)

/-! ## The scrape-plugin scope gate

`(*bing).check` and `(*rapidDNS).check` share the same gate before any
discovery work:

    if a, conf := e.Session.Scope().IsAssetInScope(fqdn, 0); conf == 0 || a == nil {
        return nil
    } else if f, ok := a.(*domain.FQDN); !ok || f == nil || !strings.EqualFold(fqdn.Name, f.Name) {
        return nil
    }
    ... lookup / query / store / process ...
-/

/-- Embedding of Go `strings.EqualFold` (case-insensitive equality under
simple case folding). -/
def eqFold (a b : String) : Bool := a.toLower == b.toLower

inductive CheckOutcome where
  /-- the event asset was not an FQDN: the callback returns an error -/
  | notFQDN
  /-- the callback returned nil without any discovery work -/
  | skipped
  /-- the callback proceeded to the discovery work (lookup / query / store / process) -/
  | discovery
  deriving DecidableEq, Repr

/-- The scope gate shared by the scrape plugins, applied to the result of
`IsAssetInScope`. -/
def gate (name : String) (r : Option OAMAsset × Int) : CheckOutcome :=
  if r.2 == 0 || r.1.isNone then CheckOutcome.skipped
  else
    match r.1 with
    | some (OAMAsset.fqdn fn) =>
        if eqFold name fn then CheckOutcome.discovery else CheckOutcome.skipped
    | _ => CheckOutcome.skipped

/-- Embedding of the check callbacks of the bing and rapidDNS scrape
plugins, up to the point where discovery work starts. -/
def checkOutcome (s : Scope) (a : OAMAsset) : CheckOutcome :=
  match a with
  | OAMAsset.fqdn name => gate name (IsAssetInScope s (OAMAsset.fqdn name) 0)
  | _ => CheckOutcome.notFQDN

/-! ## The name-to-address resolver (package utils)

`NamesToAddrs` reads the graph store through four query operations; the
resolver is embedded as a function of those operations so that every
claim about error handling and staging can be settled without fixing a
particular store.  The concrete relational semantics of the literal SQL
strings is given further below (`srvRows`, `relRows`, ...) and plugged in
by `namesToAddrsDB`. -/

/-- Address family of a successfully parsed `netip.Addr`. -/
inductive Fam where
  | v4
  | v6
  deriving DecidableEq, Repr

/-- The `Type` tag the Go code assigns: `if ip.Is4() { "IPv4" } else if ip.Is6() { "IPv6" }`. -/
def famTag : Fam → String
  | Fam.v4 => "IPv4"
  | Fam.v6 => "IPv6"

/-- `network.IPAddress` as the resolver populates it: the address value
(kept as its string form) and the family tag. -/
structure IPAddress where
  address : String
  type : String
  deriving DecidableEq, Repr

/-- `utils.NameAddrPair`. -/
structure NameAddrPair where
  fqdn : String
  addr : IPAddress
  deriving DecidableEq, Repr

/-- Resolver errors: a store failure propagated by `return nil, err`, or
the dedicated empty-result error from `generatePairsFromAddrMap`.  The Go
errors are distinct values even when messages coincide, which the two
constructors record. -/
inductive RErr where
  | store (msg : String)
  | noAddrs
  deriving DecidableEq, Repr

/-! ### stringset.Set and map[string]*stringset.Set -/

/-- `stringset` insertion: at most one copy of each member. -/
def setInsert (l : List String) (s : String) : List String :=
  if l.contains s then l else l ++ [s]

/-- `stringset` removal. -/
def removeStr (l : List String) (s : String) : List String :=
  l.filter (fun x => x != s)

/-- `remaining.InsertMany(names...)`: the deduplicated working set. -/
def initialRemaining (names : List String) : List String :=
  names.foldl setInsert []

/-- `nameAddrMap : map[string]*stringset.Set` as an association list. -/
abbrev AddrMap := List (String × List String)

def hasKey (m : AddrMap) (k : String) : Bool :=
  m.any (fun p => p.1 == k)

/-- `if _, found := nameAddrMap[k]; !found { nameAddrMap[k] = stringset.New() }`. -/
def mapEnsure (m : AddrMap) (k : String) : AddrMap :=
  if hasKey m k then m else m ++ [(k, [])]

/-- Creating the entry if needed and inserting one address into its set. -/
def mapInsert (m : AddrMap) (k a : String) : AddrMap :=
  if hasKey m k then
    m.map (fun p => if p.1 == k then (p.1, setInsert p.2 a) else p)
  else m ++ [(k, [a])]

/-! ### Pair assembly (generatePairsFromAddrMap, lines 184-208) -/

/-- The pairs assembled for one map entry: parse every address of its
set; on success emit the pair tagged with its family, on failure silently
skip it. -/
def entryPairs (parse : String → Option Fam) (k : String) (v : List String) :
    List NameAddrPair :=
  v.filterMap (fun a =>
    match parse a with
    | some f => some { fqdn := k, addr := { address := a, type := famTag f } }
    | none => none)

/-- The pairs the assembly loop builds over the whole map. -/
def allPairs (parse : String → Option Fam) (m : AddrMap) : List NameAddrPair :=
  m.flatMap (fun e => entryPairs parse e.1 e.2)

/-- Embedding of `generatePairsFromAddrMap`: assemble the pairs, fail with
the dedicated error when none were produced. -/
def generatePairsFromAddrMap (parse : String → Option Fam) (m : AddrMap) :
    Except RErr (List NameAddrPair) :=
  if (allPairs parse m).isEmpty then Except.error RErr.noAddrs
  else Except.ok (allPairs parse m)

/-! ### The staged pipeline (NamesToAddrs, lines 44-161)

Row results of the two raw row queries are `(name, addr)` pairs; the
relation query returns relations hydrated with both endpoint assets. -/

/-- An asset row of the store: id, type discriminator, and the two
content fields the resolver reads (`name` for FQDNs, `address` for IP
addresses). -/
structure DBAsset where
  id : Nat
  type : String
  name : String
  address : String
  deriving DecidableEq, Repr

/-- A relation row hydrated with both endpoints, as returned by
`db.RelationQuery`. -/
structure RelRow where
  fromAsset : DBAsset
  toAsset : DBAsset
  deriving DecidableEq, Repr

/-- `if err == nil { results } else { /* stage skipped */ }` — the value a
stage actually iterates over when its query error is ignored. -/
def resOrEmpty {α : Type} : Except String (List α) → List α
  | Except.ok l => l
  | Except.error _ => []

/-- Stage 1 loop body (lines 76-85): only rows whose name is still in the
remaining set are taken; the name is removed before its address is
recorded, so later rows for the same name are skipped. -/
def stage1Step (acc : AddrMap × List String) (row : String × String) :
    AddrMap × List String :=
  if acc.2.contains row.1 then
    (mapInsert acc.1 row.1 row.2, removeStr acc.2 row.1)
  else acc

/-- Stage 2 loop body (lines 104-114): a map entry is created for every
FQDN source; the address is recorded and the name resolved only when the
target is an IP address. -/
def stage2Step (acc : AddrMap × List String) (row : RelRow) :
    AddrMap × List String :=
  if row.fromAsset.type == "FQDN" then
    if row.toAsset.type == "IPAddress" then
      (mapInsert (mapEnsure acc.1 row.fromAsset.name) row.fromAsset.name row.toAsset.address,
       removeStr acc.2 row.fromAsset.name)
    else (mapEnsure acc.1 row.fromAsset.name, acc.2)
  else acc

/-- Recording the rows of one recursive cname-chain query under the chain
head name (lines 151-156). -/
def insertRows (m : AddrMap) (name : String) (rows : List (String × String)) : AddrMap :=
  rows.foldl (fun acc row => mapInsert acc name row.2) m

/-- Stage 3 loop body (lines 142-158): one recursive chain query per
discovered cname source; a query error or an empty row set leaves the
state untouched. -/
def stage3Step (ccQ : String → Except String (List (String × String)))
    (acc : AddrMap × List String) (name : String) : AddrMap × List String :=
  match ccQ name with
  | Except.error _ => acc
  | Except.ok rows =>
      if rows.isEmpty then acc
      else (insertRows acc.1 name rows, removeStr acc.2 name)

def stage1Fold (acc : AddrMap × List String) (rows : List (String × String)) :
    AddrMap × List String :=
  rows.foldl stage1Step acc

def stage2Fold (acc : AddrMap × List String) (rows : List RelRow) :
    AddrMap × List String :=
  rows.foldl stage2Step acc

def stage3Fold (ccQ : String → Except String (List (String × String)))
    (acc : AddrMap × List String) (cnames : List String) : AddrMap × List String :=
  cnames.foldl (stage3Step ccQ) acc

/-- The resolver state after the SRV/NS/MX stage: its query is issued on
the full deduplicated name set and its error is ignored. -/
def state1 (srvQ : List String → Except String (List (String × String)))
    (names : List String) : AddrMap × List String :=
  stage1Fold ([], initialRemaining names) (resOrEmpty (srvQ (initialRemaining names)))

/-- The cname sources the asset query returned, projected to FQDN names
(lines 134-139). -/
def cnameNames (assets : List DBAsset) : List String :=
  assets.filterMap (fun a => if a.type == "FQDN" then some a.name else none)

/-- Embedding of `utils.NamesToAddrs` over the four store query
operations.  Stage order, the two early returns on an empty remaining
set, and the two hard error propagations (`db.RelationQuery` and
`db.AssetQuery`) follow lines 44-161 of the source. -/
def NamesToAddrs (srvQ : List String → Except String (List (String × String)))
    (relQ : List String → Except String (List RelRow))
    (caQ : List String → Except String (List DBAsset))
    (ccQ : String → Except String (List (String × String)))
    (parse : String → Option Fam) (names : List String) :
    Except RErr (List NameAddrPair) :=
  if (state1 srvQ names).2.isEmpty then
    generatePairsFromAddrMap parse (state1 srvQ names).1
  else
    match relQ (state1 srvQ names).2 with
    | Except.error e => Except.error (RErr.store e)
    | Except.ok rels =>
        if (stage2Fold (state1 srvQ names) rels).2.isEmpty then
          generatePairsFromAddrMap parse (stage2Fold (state1 srvQ names) rels).1
        else
          match caQ (stage2Fold (state1 srvQ names) rels).2 with
          | Except.error e => Except.error (RErr.store e)
          | Except.ok assets =>
              generatePairsFromAddrMap parse
                (stage3Fold ccQ (stage2Fold (state1 srvQ names) rels)
                  (cnameNames assets)).1

/-- The address map the run ends on when neither hard-failure query
errors out (with ignored-error queries normalized to empty row sets). -/
def finalMap (srvQ : List String → Except String (List (String × String)))
    (relQ : List String → Except String (List RelRow))
    (caQ : List String → Except String (List DBAsset))
    (ccQ : String → Except String (List (String × String)))
    (names : List String) : AddrMap :=
  if (state1 srvQ names).2.isEmpty then (state1 srvQ names).1
  else
    let rels := resOrEmpty (relQ (state1 srvQ names).2)
    if (stage2Fold (state1 srvQ names) rels).2.isEmpty then
      (stage2Fold (state1 srvQ names) rels).1
    else
      let assets := resOrEmpty (caQ (stage2Fold (state1 srvQ names) rels).2)
      (stage3Fold ccQ (stage2Fold (state1 srvQ names) rels) (cnameNames assets)).1

/-! ### Relational semantics of the literal SQL queries

The store behind `NamesToAddrs` is a table of assets and a table of
typed, time-stamped relations.  Every query the Go code builds filters
relations with the same conjunct `relations.last_seen > 'since'`, added
only when `since` is non-zero; this is embedded by pre-filtering the
relations table with `sinceFilter` and running the remaining join
conditions on the result. -/

structure DBRelation where
  rtype : String
  fromId : Nat
  toId : Nat
  lastSeen : Nat
  deriving DecidableEq, Repr

structure GraphDB where
  assets : List DBAsset
  relations : List DBRelation
  deriving DecidableEq, Repr

/-- The time condition of the SQL: no condition at all when `since` is the
zero time, otherwise `last_seen > since` (strict). -/
def sinceFilter (since lastSeen : Nat) : Bool :=
  if since = 0 then true else decide (since < lastSeen)

/-- The relations that pass the time condition. -/
def liveRels (db : GraphDB) (since : Nat) : List DBRelation :=
  db.relations.filter (fun r => sinceFilter since r.lastSeen)

/-- SQL join on asset id. -/
def assetById (assets : List DBAsset) (i : Nat) : List DBAsset :=
  assets.filter (fun a => a.id == i)

/-- Rows of the stage-1 raw query (lines 56-68): FQDN --srv/ns/mx-->
FQDN --a/aaaa--> IPAddress, the source name restricted to the remaining
set, yielding (source name, address). -/
def srvRows (assets : List DBAsset) (rels : List DBRelation)
    (remaining : List String) : List (String × String) :=
  rels.flatMap (fun r1 =>
    if r1.rtype == "srv_record" || r1.rtype == "ns_record" || r1.rtype == "mx_record" then
      (assetById assets r1.fromId).flatMap (fun fq =>
        if fq.type == "FQDN" && remaining.contains fq.name then
          (assetById assets r1.toId).flatMap (fun srv =>
            if srv.type == "FQDN" then
              rels.flatMap (fun r2 =>
                if (r2.fromId == srv.id) &&
                    (r2.rtype == "a_record" || r2.rtype == "aaaa_record") then
                  (assetById assets r2.toId).flatMap (fun ip =>
                    if ip.type == "IPAddress" then [(fq.name, ip.address)] else [])
                else [])
            else [])
        else [])
    else [])

/-- Rows of the stage-2 relation query (lines 92-98): a/aaaa relations
whose source is an FQDN with a still-remaining name, hydrated with both
endpoint assets. -/
def relRows (assets : List DBAsset) (rels : List DBRelation)
    (remaining : List String) : List RelRow :=
  rels.flatMap (fun r =>
    if r.rtype == "a_record" || r.rtype == "aaaa_record" then
      (assetById assets r.fromId).flatMap (fun fa =>
        if fa.type == "FQDN" && remaining.contains fa.name then
          (assetById assets r.toId).map (fun ta => { fromAsset := fa, toAsset := ta })
        else [])
    else [])

/-- Rows of the stage-3 asset query (lines 121-127): the FQDN sources of
cname relations with a still-remaining name. -/
def cnameSources (assets : List DBAsset) (rels : List DBRelation)
    (remaining : List String) : List DBAsset :=
  rels.flatMap (fun r =>
    if r.rtype == "cname_record" then
      (assetById assets r.fromId).flatMap (fun fa =>
        if fa.type == "FQDN" && remaining.contains fa.name then [fa] else [])
    else [])

/-- One expansion step of the recursive CTE `traverse_cname` (cnameQuery,
lines 164-172): add the names of FQDN targets of cname relations whose
FQDN source name is already in the set. -/
def cnameStepFn (assets : List DBAsset) (rels : List DBRelation)
    (seen : List String) : List String :=
  (rels.flatMap (fun r =>
    if r.rtype == "cname_record" then
      (assetById assets r.fromId).flatMap (fun fa =>
        if fa.type == "FQDN" && seen.contains fa.name then
          (assetById assets r.toId).flatMap (fun ca =>
            if ca.type == "FQDN" then [ca.name] else [])
        else [])
    else [])).foldl setInsert seen

/-- Fuel-bounded fixpoint of `cnameStepFn`.  Every productive step adds at
least one FQDN asset name to a deduplicated set, so `assets.length` steps
always reach the closure the recursive CTE computes. -/
def traverseCname (assets : List DBAsset) (rels : List DBRelation) :
    Nat → List String → List String
  | 0, seen => seen
  | k + 1, seen => traverseCname assets rels k (cnameStepFn assets rels seen)

/-- Rows of the recursive cname-chain query (cnameQuery, lines 163-182):
(name, address) for every a/aaaa relation from an FQDN whose name is in
the cname closure of the start name. -/
def cnameChainRows (assets : List DBAsset) (rels : List DBRelation)
    (name : String) : List (String × String) :=
  let seen := traverseCname assets rels assets.length [name]
  rels.flatMap (fun r =>
    if r.rtype == "a_record" || r.rtype == "aaaa_record" then
      (assetById assets r.fromId).flatMap (fun fa =>
        if fa.type == "FQDN" && seen.contains fa.name then
          (assetById assets r.toId).flatMap (fun ip =>
            if ip.type == "IPAddress" then [(fa.name, ip.address)] else [])
        else [])
    else [])

/-- `NamesToAddrs` against a concrete graph store under a `since` cutoff:
the four query operations run the relational semantics above on the
time-filtered relations, and a healthy store reports no errors. -/
def namesToAddrsDB (db : GraphDB) (since : Nat) (parse : String → Option Fam)
    (names : List String) : Except RErr (List NameAddrPair) :=
  NamesToAddrs
    (fun rem => Except.ok (srvRows db.assets (liveRels db since) rem))
    (fun rem => Except.ok (relRows db.assets (liveRels db since) rem))
    (fun rem => Except.ok (cnameSources db.assets (liveRels db since) rem))
    (fun n => Except.ok (cnameChainRows db.assets (liveRels db since) n))
    parse names

/-- The same resolver run with every time condition removed. -/
def namesToAddrsNF (db : GraphDB) (parse : String → Option Fam)
    (names : List String) : Except RErr (List NameAddrPair) :=
  NamesToAddrs
    (fun rem => Except.ok (srvRows db.assets db.relations rem))
    (fun rem => Except.ok (relRows db.assets db.relations rem))
    (fun rem => Except.ok (cnameSources db.assets db.relations rem))
    (fun n => Except.ok (cnameChainRows db.assets db.relations n))
    parse names

/-- The graph with every relation that fails the time condition removed. -/
def restrictDB (db : GraphDB) (since : Nat) : GraphDB :=
  GraphDB.mk db.assets (db.relations.filter (fun r => sinceFilter since r.lastSeen))

/-! ## Helper lemmas: lists and sets -/

theorem contains_mem {l : List String} {s : String} : l.contains s = true ↔ s ∈ l := by
  induction l with
  | nil => simp
  | cons a t ih => simp [List.contains_cons, ih, beq_iff_eq]

theorem mem_setInsert {l : List String} {s n : String} :
    n ∈ setInsert l s ↔ n ∈ l ∨ n = s := by
  unfold setInsert
  split
  · next h =>
    have hs : s ∈ l := contains_mem.mp h
    constructor
    · exact Or.inl
    · rintro (h1 | rfl)
      · exact h1
      · exact hs
  · simp

theorem mem_removeStr {l : List String} {s n : String} :
    n ∈ removeStr l s ↔ n ∈ l ∧ n ≠ s := by
  simp [removeStr, List.mem_filter]

theorem mem_foldl_setInsert : ∀ (l : List String) (acc : List String) (n : String),
    n ∈ l.foldl setInsert acc → n ∈ acc ∨ n ∈ l := by
  intro l
  induction l with
  | nil => intro acc n h; exact Or.inl h
  | cons a t ih =>
    intro acc n h
    rcases ih (setInsert acc a) n h with h1 | h1
    · rcases mem_setInsert.mp h1 with h2 | rfl
      · exact Or.inl h2
      · exact Or.inr (List.mem_cons_self _ _)
    · exact Or.inr (List.mem_cons_of_mem a h1)

theorem mem_initialRemaining {names : List String} {n : String}
    (h : n ∈ initialRemaining names) : n ∈ names := by
  rcases mem_foldl_setInsert names [] n h with h1 | h1
  · cases h1
  · exact h1

theorem foldl_pres {α β : Type} (P : α → Prop) (f : α → β → α)
    (hf : ∀ a b, P a → P (f a b)) :
    ∀ (l : List β) (a : α), P a → P (l.foldl f a) := by
  intro l
  induction l with
  | nil => intro a h; exact h
  | cons b t ih => intro a h; exact ih (f a b) (hf a b h)

theorem filter_idem {α : Type} (p : α → Bool) (l : List α) :
    (l.filter p).filter p = l.filter p := by
  induction l with
  | nil => rfl
  | cons a t ih =>
    by_cases h : p a = true
    · simp [List.filter_cons, h, ih]
    · simp [List.filter_cons, h, ih]

theorem filter_all_true {α : Type} (p : α → Bool) (l : List α)
    (h : ∀ a ∈ l, p a = true) : l.filter p = l := by
  induction l with
  | nil => rfl
  | cons a t ih =>
    simp [List.filter_cons, h a (List.mem_cons_self a t),
      ih (fun x hx => h x (List.mem_cons_of_mem a hx))]

/-! ## Helper lemmas: substring scan -/

theorem charsLead_iff (p : List Char) : ∀ s : List Char,
    charsLead p s = true ↔ ∃ r, s = p ++ r := by
  induction p with
  | nil => intro s; simp [charsLead]
  | cons a as ih =>
    intro s
    cases s with
    | nil => simp [charsLead]
    | cons b bs =>
      simp only [charsLead, Bool.and_eq_true, beq_iff_eq, List.cons_append,
        List.cons.injEq, ih bs]
      constructor
      · rintro ⟨hab, r, hr⟩
        exact ⟨r, hab.symm, hr⟩
      · rintro ⟨r, hba, hr⟩
        exact ⟨hba.symm, r, hr⟩

theorem charsWithin_iff (p : List Char) : ∀ s : List Char,
    charsWithin p s = true ↔ ∃ l r, s = l ++ p ++ r := by
  intro s
  induction s with
  | nil =>
    simp only [charsWithin, charsLead_iff]
    constructor
    · rintro ⟨r, hr⟩
      exact ⟨[], r, by simpa using hr⟩
    · rintro ⟨l, r, hr⟩
      rcases List.append_eq_nil.mp hr.symm with ⟨h1, h2⟩
      rcases List.append_eq_nil.mp h1 with ⟨h3, h4⟩
      exact ⟨[], by simp [h3, h4, h2]⟩
  | cons c cs ih =>
    simp only [charsWithin, Bool.or_eq_true, charsLead_iff, ih]
    constructor
    · rintro (⟨r, hr⟩ | ⟨l, r, hr⟩)
      · exact ⟨[], r, by simpa using hr⟩
      · exact ⟨c :: l, r, by simp [hr]⟩
    · rintro ⟨l, r, hr⟩
      cases l with
      | nil => exact Or.inl ⟨r, by simpa using hr⟩
      | cons x xs =>
        simp only [List.cons_append, List.cons.injEq] at hr
        exact Or.inr ⟨xs, r, hr.2⟩

/-! ## Helper lemmas: the fallback combinator and the gate -/

theorem fallback_proper (r alt : Option OAMAsset × Int) :
    properMatch (if r.1.isNone || r.2 == 0 then alt else r) ↔
      properMatch r ∨ properMatch alt := by
  rcases r with ⟨m, acc⟩
  cases m with
  | none => simp [properMatch]
  | some x =>
    by_cases hacc : acc = 0
    · simp [properMatch, hacc]
    · simp [properMatch, hacc]

theorem gate_discovery_iff (name : String) (r : Option OAMAsset × Int) :
    gate name r = CheckOutcome.discovery ↔
      ∃ fn, r.1 = some (OAMAsset.fqdn fn) ∧ r.2 ≠ 0 ∧ eqFold name fn = true := by
  rcases r with ⟨m, acc⟩
  by_cases hacc : acc = 0
  · simp [gate, hacc]
  · cases m with
    | none => simp [gate, hacc]
    | some a =>
      cases a <;> simp [gate, hacc]

theorem gate_total (name : String) (r : Option OAMAsset × Int) :
    gate name r = CheckOutcome.discovery ∨ gate name r = CheckOutcome.skipped := by
  rcases r with ⟨m, acc⟩
  by_cases hacc : acc = 0
  · simp [gate, hacc]
  · cases m with
    | none => simp [gate, hacc]
    | some a =>
      cases a <;> simp [gate, hacc]

/-! ## Helper lemmas: stage-3 folds with degenerate chain queries -/

theorem stage3Fold_const_err (e : String) :
    ∀ (cnames : List String) (acc : AddrMap × List String),
      stage3Fold (fun _ => Except.error e) acc cnames = acc := by
  intro cnames
  induction cnames with
  | nil => intro acc; rfl
  | cons c t ih => intro acc; exact ih acc

theorem stage3Fold_const_nil :
    ∀ (cnames : List String) (acc : AddrMap × List String),
      stage3Fold (fun _ => Except.ok ([] : List (String × String))) acc cnames = acc := by
  intro cnames
  induction cnames with
  | nil => intro acc; rfl
  | cons c t ih => intro acc; exact ih acc

/-! ## Helper lemmas: the time filter -/

theorem liveRels_restrict (db : GraphDB) (since : Nat) :
    liveRels (restrictDB db since) since = liveRels db since :=
  filter_idem _ db.relations

theorem liveRels_zero (db : GraphDB) : liveRels db 0 = db.relations :=
  filter_all_true _ db.relations (fun r _ => by simp [sinceFilter])

theorem liveRels_all (db : GraphDB) (since : Nat)
    (h : ∀ r ∈ db.relations, sinceFilter since r.lastSeen = true) :
    liveRels db since = db.relations :=
  filter_all_true _ db.relations h

/-! ## Concrete stores and parsers used by counterexamples and witnesses -/

def qSrvEmpty : List String → Except String (List (String × String)) :=
  fun _ => Except.ok []

def qRelEmpty : List String → Except String (List RelRow) :=
  fun _ => Except.ok []

def qCaEmpty : List String → Except String (List DBAsset) :=
  fun _ => Except.ok []

def qCcEmpty : String → Except String (List (String × String)) :=
  fun _ => Except.ok []

def parseNone : String → Option Fam := fun _ => none

/-- A parser instance recognizing one IPv4 and one IPv6 literal. -/
def parseSample : String → Option Fam := fun s =>
  if s == "1.2.3.4" then some Fam.v4
  else if s == "::1" then some Fam.v6
  else none

/-- A graph with a single a_record relation last seen at time 100. -/
def dbC3 : GraphDB :=
  GraphDB.mk
    [DBAsset.mk 1 "FQDN" "a.com" "", DBAsset.mk 2 "IPAddress" "" "1.2.3.4"]
    [DBRelation.mk "a_record" 1 2 100]

/-! ## Claim C2 -/

/-- Counterexample to C2: the direct-resolution stage is an intermediate
stage (it is neither the alias-chain discovery query nor the final pair
assembly), yet when its relation query fails the whole call returns the
store error instead of treating the stage as empty and proceeding. -/
theorem c2_counterexample :
    NamesToAddrs qSrvEmpty (fun _ => Except.error "boom") qCaEmpty qCcEmpty
        parseNone ["x.com"]
      = Except.error (RErr.store "boom")
    ∧ RErr.store "boom" ≠ RErr.noAddrs := by
  exact ⟨rfl, by decide⟩

/-- C2 amended: the SRV/NS/MX stage's raw query and each per-name
recursive cname-chain query are treated as zero results on error, while a
store error is propagated as a hard failure from the direct-resolution
stage's relation query and from the alias-chain stage's discovery asset
query (the final pair assembly issues no store query; its only error is
the no-addresses error). -/
theorem c2_error_policy
    (srvQ : List String → Except String (List (String × String)))
    (relQ : List String → Except String (List RelRow))
    (caQ : List String → Except String (List DBAsset))
    (ccQ : String → Except String (List (String × String)))
    (parse : String → Option Fam) (names : List String) (e1 e2 e3 e4 : String) :
    (NamesToAddrs (fun _ => Except.error e1) relQ caQ ccQ parse names
      = NamesToAddrs (fun _ => Except.ok []) relQ caQ ccQ parse names)
    ∧ (NamesToAddrs srvQ relQ caQ (fun _ => Except.error e2) parse names
      = NamesToAddrs srvQ relQ caQ (fun _ => Except.ok []) parse names)
    ∧ ((state1 srvQ names).2.isEmpty = false →
        NamesToAddrs srvQ (fun _ => Except.error e3) caQ ccQ parse names
          = Except.error (RErr.store e3))
    ∧ (∀ rels, (state1 srvQ names).2.isEmpty = false →
        relQ (state1 srvQ names).2 = Except.ok rels →
        (stage2Fold (state1 srvQ names) rels).2.isEmpty = false →
        NamesToAddrs srvQ relQ (fun _ => Except.error e4) ccQ parse names
          = Except.error (RErr.store e4)) := by
  refine ⟨rfl, ?_, ?_, ?_⟩
  · unfold NamesToAddrs
    cases h1 : (state1 srvQ names).2.isEmpty
    · simp only [h1, Bool.false_eq_true, if_false]
      cases h2 : relQ (state1 srvQ names).2 with
      | error e => rfl
      | ok rels =>
        cases h3 : (stage2Fold (state1 srvQ names) rels).2.isEmpty
        · simp only [h3, Bool.false_eq_true, if_false]
          cases h4 : caQ (stage2Fold (state1 srvQ names) rels).2 with
          | error e => rfl
          | ok assets =>
            simp only [stage3Fold_const_err, stage3Fold_const_nil]
        · simp only [h3, if_true]
    · simp only [h1, if_true]
  · intro h1
    unfold NamesToAddrs
    simp only [h1, Bool.false_eq_true, if_false]
  · intro rels h1 h2 h3
    unfold NamesToAddrs
    simp only [h1, Bool.false_eq_true, if_false, h2, h3]

/-- Witness for C2 at concrete stores: a failing relation query and a
failing alias-discovery query each surface as the store error. -/
theorem c2_error_policy_witness :
    NamesToAddrs qSrvEmpty (fun _ => Except.error "boom") qCaEmpty qCcEmpty
        parseNone ["w.com"]
      = Except.error (RErr.store "boom")
    ∧ NamesToAddrs qSrvEmpty qRelEmpty (fun _ => Except.error "bust") qCcEmpty
        parseNone ["w.com"]
      = Except.error (RErr.store "bust") :=
  ⟨(c2_error_policy qSrvEmpty qRelEmpty qCaEmpty qCcEmpty parseNone
      ["w.com"] "a" "b" "boom" "bust").2.2.1 rfl,
   (c2_error_policy qSrvEmpty qRelEmpty qCaEmpty qCcEmpty parseNone
      ["w.com"] "a" "b" "boom" "bust").2.2.2 [] rfl rfl rfl⟩

/-! ## Claim C3 -/

/-- Counterexample to C3: the code's time condition is strict
(`last_seen > since`), so a relation whose last-observed timestamp is
exactly at the non-zero cutoff — which is "at or after since" — never
contributes: with `since = 100` the single relation observed at 100
produces no pair, while with `since = 99` it does. -/
theorem c3_counterexample :
    dbC3.relations = [DBRelation.mk "a_record" 1 2 100]
    ∧ namesToAddrsDB dbC3 100 parseSample ["a.com"] = Except.error RErr.noAddrs
    ∧ namesToAddrsDB dbC3 99 parseSample ["a.com"]
        = Except.ok [NameAddrPair.mk "a.com" (IPAddress.mk "1.2.3.4" "IPv4")] :=
  ⟨rfl, rfl, rfl⟩

/-- C3 amended: with a non-zero cutoff a relation contributes exactly
when its last-observed timestamp is strictly after `since` — dropping all
relations at or before the cutoff never changes the result, and when
every relation passes the strict filter the run coincides with the
unfiltered run — and with the zero cutoff no time filter is applied at
any stage, including every hop of the recursive cname-chain traversal. -/
theorem c3_time_filter (db : GraphDB) (since : Nat) (parse : String → Option Fam)
    (names : List String) :
    (since ≠ 0 →
      namesToAddrsDB (restrictDB db since) since parse names
        = namesToAddrsDB db since parse names)
    ∧ ((∀ r ∈ db.relations, sinceFilter since r.lastSeen = true) →
        namesToAddrsDB db since parse names = namesToAddrsNF db parse names)
    ∧ namesToAddrsDB db 0 parse names = namesToAddrsNF db parse names := by
  refine ⟨?_, ?_, ?_⟩
  · intro _
    unfold namesToAddrsDB
    simp only [liveRels_restrict]
    rfl
  · intro h
    unfold namesToAddrsDB namesToAddrsNF
    simp only [liveRels_all db since h]
  · unfold namesToAddrsDB namesToAddrsNF
    simp only [liveRels_zero]

/-- Witness for C3 at a concrete graph and cutoff. -/
theorem c3_time_filter_witness :
    namesToAddrsDB (restrictDB dbC3 60) 60 parseSample ["a.com"]
      = namesToAddrsDB dbC3 60 parseSample ["a.com"]
    ∧ namesToAddrsDB dbC3 60 parseSample ["a.com"]
      = namesToAddrsNF dbC3 parseSample ["a.com"] :=
  ⟨(c3_time_filter dbC3 60 parseSample ["a.com"]).1 (by decide),
   (c3_time_filter dbC3 60 parseSample ["a.com"]).2.1 (by decide)⟩

/-! ## Helper lemmas: the remaining set only shrinks, stages remove resolved names -/

theorem stage1Step_sub (acc : AddrMap × List String) (row : String × String)
    (n : String) (h : n ∈ (stage1Step acc row).2) : n ∈ acc.2 := by
  unfold stage1Step at h
  by_cases hc : acc.2.contains row.1 = true
  · rw [if_pos hc] at h
    exact (mem_removeStr.mp h).1
  · rw [if_neg hc] at h
    exact h

theorem stage2Step_sub (acc : AddrMap × List String) (row : RelRow)
    (n : String) (h : n ∈ (stage2Step acc row).2) : n ∈ acc.2 := by
  unfold stage2Step at h
  by_cases h1 : (row.fromAsset.type == "FQDN") = true
  · rw [if_pos h1] at h
    by_cases h2 : (row.toAsset.type == "IPAddress") = true
    · rw [if_pos h2] at h
      exact (mem_removeStr.mp h).1
    · rw [if_neg h2] at h
      exact h
  · rw [if_neg h1] at h
    exact h

theorem stage3Step_sub (ccQ : String → Except String (List (String × String)))
    (acc : AddrMap × List String) (name : String)
    (n : String) (h : n ∈ (stage3Step ccQ acc name).2) : n ∈ acc.2 := by
  unfold stage3Step at h
  split at h
  · exact h
  · split at h
    · exact h
    · exact (mem_removeStr.mp h).1

theorem foldl_rem_mono {β : Type}
    (step : AddrMap × List String → β → AddrMap × List String)
    (hstep : ∀ acc b n, n ∈ (step acc b).2 → n ∈ acc.2) :
    ∀ (l : List β) (acc : AddrMap × List String) (n : String),
      n ∈ (l.foldl step acc).2 → n ∈ acc.2 := by
  intro l
  induction l with
  | nil => intro acc n h; exact h
  | cons b t ih => intro acc n h; exact hstep acc b n (ih (step acc b) n h)

theorem foldl_rem_not_mem {β : Type}
    (step : AddrMap × List String → β → AddrMap × List String)
    (hstep : ∀ acc b n, n ∈ (step acc b).2 → n ∈ acc.2)
    (l : List β) (acc : AddrMap × List String) (n : String)
    (h : n ∉ acc.2) : n ∉ (l.foldl step acc).2 :=
  fun hm => h (foldl_rem_mono step hstep l acc n hm)

theorem stage1_fold_not_mem :
    ∀ (rows : List (String × String)) (acc : AddrMap × List String)
      (row : String × String), row ∈ rows →
      row.1 ∉ (rows.foldl stage1Step acc).2 := by
  intro rows
  induction rows with
  | nil => intro acc row h; cases h
  | cons r t ih =>
    intro acc row hrow
    rw [List.foldl_cons]
    rcases List.mem_cons.mp hrow with rfl | h
    · apply foldl_rem_not_mem stage1Step stage1Step_sub
      unfold stage1Step
      by_cases hc : acc.2.contains row.1 = true
      · rw [if_pos hc]
        intro hm
        exact (mem_removeStr.mp hm).2 rfl
      · rw [if_neg hc]
        intro hm
        exact hc (contains_mem.mpr hm)
    · exact ih (stage1Step acc r) row h

theorem stage2_fold_not_mem :
    ∀ (rows : List RelRow) (acc : AddrMap × List String) (row : RelRow),
      row ∈ rows → row.fromAsset.type = "FQDN" → row.toAsset.type = "IPAddress" →
      row.fromAsset.name ∉ (rows.foldl stage2Step acc).2 := by
  intro rows
  induction rows with
  | nil => intro acc row h; cases h
  | cons r t ih =>
    intro acc row hrow h1 h2
    rw [List.foldl_cons]
    rcases List.mem_cons.mp hrow with rfl | h
    · apply foldl_rem_not_mem stage2Step stage2Step_sub
      unfold stage2Step
      simp only [h1, h2, beq_self_eq_true, if_true]
      intro hm
      exact (mem_removeStr.mp hm).2 rfl
    · exact ih (stage2Step acc r) row h h1 h2

theorem state1_sub (srvQ : List String → Except String (List (String × String)))
    (names : List String) (n : String) (h : n ∈ (state1 srvQ names).2) : n ∈ names := by
  unfold state1 stage1Fold at h
  exact mem_initialRemaining
    (foldl_rem_mono stage1Step stage1Step_sub _ _ _ h)

/-! ## Claim C7 -/

/-- C7: staged narrowing.  The stage-2 relation query is issued on
`(state1 srvQ names).2`, the stage-3 asset query on
`(stage2Fold (state1 srvQ names) rels).2` (this is definitional in
`NamesToAddrs`); those working sets contain only input names not yet
resolved — every name of a stage-1 row, and the source name of every
resolving stage-2 relation, is excluded.  And whenever the remaining set
is empty after a stage, the call returns the pairs assembled from that
stage's map: the result no longer depends on the later-stage queries. -/
theorem c7_staged_narrowing
    (srvQ : List String → Except String (List (String × String)))
    (relQ : List String → Except String (List RelRow))
    (caQ : List String → Except String (List DBAsset))
    (ccQ : String → Except String (List (String × String)))
    (parse : String → Option Fam) (names : List String) :
    (∀ n, n ∈ (state1 srvQ names).2 → n ∈ names)
    ∧ (∀ row, row ∈ resOrEmpty (srvQ (initialRemaining names)) →
        row.1 ∉ (state1 srvQ names).2)
    ∧ (∀ rels,
        (∀ row, row ∈ rels → row.fromAsset.type = "FQDN" →
          row.toAsset.type = "IPAddress" →
          row.fromAsset.name ∉ (stage2Fold (state1 srvQ names) rels).2)
        ∧ (∀ n, n ∈ (stage2Fold (state1 srvQ names) rels).2 →
            n ∈ (state1 srvQ names).2))
    ∧ ((state1 srvQ names).2.isEmpty = true →
        NamesToAddrs srvQ relQ caQ ccQ parse names
          = generatePairsFromAddrMap parse (state1 srvQ names).1)
    ∧ (∀ rels, relQ (state1 srvQ names).2 = Except.ok rels →
        (state1 srvQ names).2.isEmpty = false →
        (stage2Fold (state1 srvQ names) rels).2.isEmpty = true →
        NamesToAddrs srvQ relQ caQ ccQ parse names
          = generatePairsFromAddrMap parse (stage2Fold (state1 srvQ names) rels).1) := by
  refine ⟨state1_sub srvQ names, ?_, ?_, ?_, ?_⟩
  · intro row hrow
    unfold state1 stage1Fold
    exact stage1_fold_not_mem _ _ row hrow
  · intro rels
    constructor
    · intro row hrow h1 h2
      unfold stage2Fold
      exact stage2_fold_not_mem rels _ row hrow h1 h2
    · intro n h
      unfold stage2Fold at h
      exact foldl_rem_mono stage2Step stage2Step_sub rels _ n h
  · intro h1
    unfold NamesToAddrs
    simp only [h1, if_true]
  · intro rels hrel h1 h2
    unfold NamesToAddrs
    simp only [h1, Bool.false_eq_true, if_false, hrel, h2, if_true]

def wSrv7 : List String → Except String (List (String × String)) :=
  fun _ => Except.ok [("a.com", "1.2.3.4")]

def wRels7 : List RelRow :=
  [RelRow.mk (DBAsset.mk 1 "FQDN" "b.com" "") (DBAsset.mk 2 "IPAddress" "" "1.2.3.4")]

def wRel7 : List String → Except String (List RelRow) :=
  fun _ => Except.ok wRels7

/-- Witness for C7 at a concrete store: the name resolved by stage 1 is
excluded from the stage-2 working set, and when stage 2 empties the
remaining set the call returns the pairs of the stage-2 map. -/
theorem c7_staged_narrowing_witness :
    "a.com" ∉ (state1 wSrv7 ["a.com", "b.com"]).2
    ∧ NamesToAddrs wSrv7 wRel7 qCaEmpty qCcEmpty parseSample ["a.com", "b.com"]
        = generatePairsFromAddrMap parseSample
            (stage2Fold (state1 wSrv7 ["a.com", "b.com"]) wRels7).1 :=
  ⟨(c7_staged_narrowing wSrv7 wRel7 qCaEmpty qCcEmpty parseSample
      ["a.com", "b.com"]).2.1 ("a.com", "1.2.3.4") (by decide),
   (c7_staged_narrowing wSrv7 wRel7 qCaEmpty qCcEmpty parseSample
      ["a.com", "b.com"]).2.2.2.2 wRels7 rfl rfl rfl⟩

/-! ## Helper lemmas: the address map keeps nodup keys and nodup address sets -/

def mapKeys (m : AddrMap) : List String := m.map Prod.fst

def MapInv (m : AddrMap) : Prop :=
  (mapKeys m).Nodup ∧ ∀ e ∈ m, e.2.Nodup

theorem mapInv_nil : MapInv [] :=
  ⟨List.nodup_nil, by intro e he; cases he⟩

theorem setInsert_nodup {l : List String} {a : String} (h : l.Nodup) :
    (setInsert l a).Nodup := by
  unfold setInsert
  split
  · exact h
  · next hc =>
    have ha : a ∉ l := fun hm => hc (contains_mem.mpr hm)
    refine List.nodup_append.mpr ⟨h, List.nodup_singleton a, ?_⟩
    intro x hx hxa
    rw [List.mem_singleton] at hxa
    exact ha (hxa ▸ hx)

theorem hasKey_eq_false {m : AddrMap} {k : String} (hc : ¬ hasKey m k = true) :
    hasKey m k = false := by
  cases hkk : hasKey m k
  · rfl
  · exact absurd hkk hc

theorem hasKey_false_not_mem {m : AddrMap} {k : String}
    (h : hasKey m k = false) : k ∉ mapKeys m := by
  intro hmem
  rcases List.mem_map.mp hmem with ⟨e, he, hk⟩
  have h2 : hasKey m k = true := List.any_eq_true.mpr ⟨e, he, by simp [hk]⟩
  rw [h] at h2
  cases h2

theorem mapKeys_append (m : AddrMap) (e : String × List String) :
    mapKeys (m ++ [e]) = mapKeys m ++ [e.1] := by
  simp [mapKeys]

theorem mapKeys_snoc_nodup {m : AddrMap} {e : String × List String}
    (h : (mapKeys m).Nodup) (hk : e.1 ∉ mapKeys m) : (mapKeys (m ++ [e])).Nodup := by
  rw [mapKeys_append]
  refine List.nodup_append.mpr ⟨h, List.nodup_singleton _, ?_⟩
  intro x hx hxk
  rw [List.mem_singleton] at hxk
  exact hk (hxk ▸ hx)

theorem mapEnsure_inv {m : AddrMap} {k : String} (h : MapInv m) :
    MapInv (mapEnsure m k) := by
  unfold mapEnsure
  split
  · exact h
  · next hc =>
    have hk : k ∉ mapKeys m := hasKey_false_not_mem (hasKey_eq_false hc)
    constructor
    · exact mapKeys_snoc_nodup h.1 hk
    · intro e he
      rcases List.mem_append.mp he with h1 | h1
      · exact h.2 e h1
      · rw [List.mem_singleton] at h1
        subst h1
        exact List.nodup_nil

theorem mapKeys_cons (e : String × List String) (m : AddrMap) :
    mapKeys (e :: m) = e.1 :: mapKeys m := rfl

theorem mapKeys_update (m : AddrMap) (k : String)
    (g : String × List String → List String) :
    mapKeys (m.map fun p => if p.1 == k then (p.1, g p) else p) = mapKeys m := by
  induction m with
  | nil => rfl
  | cons e t ih =>
    simp only [List.map_cons]
    by_cases he : (e.1 == k) = true
    · rw [if_pos he, mapKeys_cons, mapKeys_cons, ih]
    · rw [if_neg he, mapKeys_cons, mapKeys_cons, ih]

theorem mapInsert_inv {m : AddrMap} {k a : String} (h : MapInv m) :
    MapInv (mapInsert m k a) := by
  unfold mapInsert
  split
  · constructor
    · rw [mapKeys_update]
      exact h.1
    · intro e he
      rcases List.mem_map.mp he with ⟨p, hp, rfl⟩
      by_cases hh : (p.1 == k) = true
      · rw [if_pos hh]
        exact setInsert_nodup (h.2 p hp)
      · rw [if_neg hh]
        exact h.2 p hp
  · next hc =>
    have hk : k ∉ mapKeys m := hasKey_false_not_mem (hasKey_eq_false hc)
    constructor
    · exact mapKeys_snoc_nodup h.1 hk
    · intro e he
      rcases List.mem_append.mp he with h1 | h1
      · exact h.2 e h1
      · rw [List.mem_singleton] at h1
        subst h1
        exact List.nodup_singleton a

theorem insertRows_inv {m : AddrMap} {name : String}
    {rows : List (String × String)} (h : MapInv m) :
    MapInv (insertRows m name rows) := by
  unfold insertRows
  exact foldl_pres MapInv _ (fun acc row hp => mapInsert_inv hp) rows m h

theorem stage1Step_inv (acc : AddrMap × List String) (row : String × String)
    (h : MapInv acc.1) : MapInv (stage1Step acc row).1 := by
  unfold stage1Step
  split
  · exact mapInsert_inv h
  · exact h

theorem stage2Step_inv (acc : AddrMap × List String) (row : RelRow)
    (h : MapInv acc.1) : MapInv (stage2Step acc row).1 := by
  unfold stage2Step
  split
  · split
    · exact mapInsert_inv (mapEnsure_inv h)
    · exact mapEnsure_inv h
  · exact h

theorem stage3Step_inv (ccQ : String → Except String (List (String × String)))
    (acc : AddrMap × List String) (name : String)
    (h : MapInv acc.1) : MapInv (stage3Step ccQ acc name).1 := by
  unfold stage3Step
  split
  · exact h
  · split
    · exact h
    · exact insertRows_inv h

theorem state1_inv (srvQ : List String → Except String (List (String × String)))
    (names : List String) : MapInv (state1 srvQ names).1 := by
  unfold state1 stage1Fold
  exact foldl_pres (fun a => MapInv a.1) stage1Step stage1Step_inv _
    ([], initialRemaining names) mapInv_nil

theorem stage2Fold_inv (acc : AddrMap × List String) (rels : List RelRow)
    (h : MapInv acc.1) : MapInv (stage2Fold acc rels).1 := by
  unfold stage2Fold
  exact foldl_pres (fun a => MapInv a.1) stage2Step stage2Step_inv rels acc h

theorem stage3Fold_inv (ccQ : String → Except String (List (String × String)))
    (acc : AddrMap × List String) (cnames : List String)
    (h : MapInv acc.1) : MapInv (stage3Fold ccQ acc cnames).1 := by
  unfold stage3Fold
  exact foldl_pres (fun a => MapInv a.1) (stage3Step ccQ) (stage3Step_inv ccQ) cnames acc h

/-! ## Helper lemmas: the shape of resolver results -/

theorem generate_ok {parse : String → Option Fam} {m : AddrMap}
    {ps : List NameAddrPair}
    (h : generatePairsFromAddrMap parse m = Except.ok ps) :
    ps = allPairs parse m ∧ ps ≠ [] := by
  unfold generatePairsFromAddrMap at h
  by_cases he : (allPairs parse m).isEmpty = true
  · rw [if_pos he] at h
    cases h
  · rw [if_neg he] at h
    injection h with h2
    subst h2
    refine ⟨rfl, ?_⟩
    intro hnil
    exact he (by rw [hnil]; rfl)

theorem generate_err_iff (parse : String → Option Fam) (m : AddrMap) :
    generatePairsFromAddrMap parse m = Except.error RErr.noAddrs ↔
      allPairs parse m = [] := by
  unfold generatePairsFromAddrMap
  by_cases he : (allPairs parse m).isEmpty = true
  · rw [if_pos he]
    constructor
    · intro _
      cases hl : allPairs parse m
      · rfl
      · rw [hl] at he; cases he
    · intro _; rfl
  · rw [if_neg he]
    constructor
    · intro h; cases h
    · intro h
      exact absurd (by rw [h]; rfl) he

/-- Every successful run went through `generatePairsFromAddrMap` on a map
built by the stage folds, which keeps nodup keys and nodup address sets. -/
theorem namesToAddrs_ok_inv
    (srvQ : List String → Except String (List (String × String)))
    (relQ : List String → Except String (List RelRow))
    (caQ : List String → Except String (List DBAsset))
    (ccQ : String → Except String (List (String × String)))
    (parse : String → Option Fam) (names : List String) (ps : List NameAddrPair)
    (h : NamesToAddrs srvQ relQ caQ ccQ parse names = Except.ok ps) :
    ∃ m, MapInv m ∧ generatePairsFromAddrMap parse m = Except.ok ps := by
  unfold NamesToAddrs at h
  by_cases h1 : (state1 srvQ names).2.isEmpty = true
  · rw [if_pos h1] at h
    exact ⟨_, state1_inv srvQ names, h⟩
  · rw [if_neg h1] at h
    split at h
    · cases h
    · next rels heq =>
      by_cases h3 : (stage2Fold (state1 srvQ names) rels).2.isEmpty = true
      · rw [if_pos h3] at h
        exact ⟨_, stage2Fold_inv _ _ (state1_inv srvQ names), h⟩
      · rw [if_neg h3] at h
        split at h
        · cases h
        · exact ⟨_, stage3Fold_inv ccQ _ _ (stage2Fold_inv _ _ (state1_inv srvQ names)), h⟩

/-- When neither hard-failure query errors, the run is exactly the pair
assembly of `finalMap`. -/
theorem namesToAddrs_run
    (srvQ : List String → Except String (List (String × String)))
    (relQ : List String → Except String (List RelRow))
    (caQ : List String → Except String (List DBAsset))
    (ccQ : String → Except String (List (String × String)))
    (parse : String → Option Fam) (names : List String)
    (hrel : ∀ rem, ∃ x, relQ rem = Except.ok x)
    (hca : ∀ rem, ∃ x, caQ rem = Except.ok x) :
    NamesToAddrs srvQ relQ caQ ccQ parse names
      = generatePairsFromAddrMap parse (finalMap srvQ relQ caQ ccQ names) := by
  unfold NamesToAddrs finalMap
  by_cases h1 : (state1 srvQ names).2.isEmpty = true
  · rw [if_pos h1, if_pos h1]
  · rw [if_neg h1, if_neg h1]
    obtain ⟨rels, hr⟩ := hrel (state1 srvQ names).2
    rw [hr]
    simp only [resOrEmpty]
    by_cases h3 : (stage2Fold (state1 srvQ names) rels).2.isEmpty = true
    · rw [if_pos h3, if_pos h3]
    · rw [if_neg h3, if_neg h3]
      obtain ⟨assets, hc2⟩ := hca (stage2Fold (state1 srvQ names) rels).2
      rw [hc2]

/-! ## Claim C4 -/

/-- C4: the resolver never returns a successful empty list, and — as long
as the two hard-failure queries do not error, so that the run reaches
pair assembly — it fails with the dedicated no-addresses error exactly
when the combined pair set over the final map (malformed addresses
dropped) is empty, and returns exactly that pair set otherwise. -/
theorem c4_empty_result
    (srvQ : List String → Except String (List (String × String)))
    (relQ : List String → Except String (List RelRow))
    (caQ : List String → Except String (List DBAsset))
    (ccQ : String → Except String (List (String × String)))
    (parse : String → Option Fam) (names : List String) :
    (∀ ps, NamesToAddrs srvQ relQ caQ ccQ parse names = Except.ok ps → ps ≠ [])
    ∧ ((∀ rem, ∃ x, relQ rem = Except.ok x) → (∀ rem, ∃ x, caQ rem = Except.ok x) →
        (NamesToAddrs srvQ relQ caQ ccQ parse names = Except.error RErr.noAddrs
          ↔ allPairs parse (finalMap srvQ relQ caQ ccQ names) = [])
        ∧ (∀ ps, NamesToAddrs srvQ relQ caQ ccQ parse names = Except.ok ps →
            ps = allPairs parse (finalMap srvQ relQ caQ ccQ names))) := by
  constructor
  · intro ps h
    obtain ⟨m, _, hg⟩ := namesToAddrs_ok_inv srvQ relQ caQ ccQ parse names ps h
    exact (generate_ok hg).2
  · intro hrel hca
    rw [namesToAddrs_run srvQ relQ caQ ccQ parse names hrel hca]
    constructor
    · exact generate_err_iff parse _
    · intro ps h
      exact (generate_ok h).1

/-- Witness for C4 at a concrete store: the no-addresses error occurs
exactly when the final pair set is empty, and the successful result is
never the empty list. -/
theorem c4_empty_result_witness :
    (NamesToAddrs wSrv7 qRelEmpty qCaEmpty qCcEmpty parseSample ["a.com"]
        = Except.error RErr.noAddrs
      ↔ allPairs parseSample (finalMap wSrv7 qRelEmpty qCaEmpty qCcEmpty ["a.com"]) = [])
    ∧ [NameAddrPair.mk "a.com" (IPAddress.mk "1.2.3.4" "IPv4")]
        ≠ ([] : List NameAddrPair) :=
  ⟨((c4_empty_result wSrv7 qRelEmpty qCaEmpty qCcEmpty parseSample ["a.com"]).2
      (fun _ => ⟨[], rfl⟩) (fun _ => ⟨[], rfl⟩)).1,
   (c4_empty_result wSrv7 qRelEmpty qCaEmpty qCcEmpty parseSample ["a.com"]).1
      [NameAddrPair.mk "a.com" (IPAddress.mk "1.2.3.4" "IPv4")] rfl⟩

/-! ## Helper lemmas: pair assembly -/

theorem allPairs_cons (parse : String → Option Fam) (e : String × List String)
    (m : AddrMap) :
    allPairs parse (e :: m) = entryPairs parse e.1 e.2 ++ allPairs parse m := by
  simp [allPairs]

theorem allPairs_append (parse : String → Option Fam) (m1 m2 : AddrMap) :
    allPairs parse (m1 ++ m2) = allPairs parse m1 ++ allPairs parse m2 := by
  simp [allPairs]

theorem mem_allPairs {parse : String → Option Fam} {m : AddrMap} {p : NameAddrPair}
    (h : p ∈ allPairs parse m) :
    ∃ f, parse p.addr.address = some f ∧ p.addr.type = famTag f := by
  unfold allPairs at h
  rcases List.mem_flatMap.mp h with ⟨e, he, hp⟩
  unfold entryPairs at hp
  rcases List.mem_filterMap.mp hp with ⟨a, ha, hg⟩
  cases hparse : parse a with
  | none => rw [hparse] at hg; cases hg
  | some f =>
    simp only [hparse] at hg
    cases hg
    exact ⟨f, hparse, rfl⟩

theorem famTag_iff (f : Fam) :
    (famTag f = "IPv4" ↔ f = Fam.v4) ∧ (famTag f = "IPv6" ↔ f = Fam.v6) := by
  cases f
  · exact ⟨iff_of_true rfl rfl, iff_of_false (by decide) (by decide)⟩
  · exact ⟨iff_of_false (by decide) (by decide), iff_of_true rfl rfl⟩

theorem entryPairs_setInsert_none {parse : String → Option Fam} {k a : String}
    {v : List String} (h : parse a = none) :
    entryPairs parse k (setInsert v a) = entryPairs parse k v := by
  unfold setInsert
  split
  · rfl
  · unfold entryPairs
    rw [List.filterMap_append]
    simp [h]

theorem allPairs_update_none {parse : String → Option Fam} {k a : String}
    (h : parse a = none) : ∀ m : AddrMap,
    allPairs parse (m.map fun p => if p.1 == k then (p.1, setInsert p.2 a) else p)
      = allPairs parse m := by
  intro m
  induction m with
  | nil => rfl
  | cons e t ih =>
    simp only [List.map_cons]
    by_cases hh : (e.1 == k) = true
    · rw [if_pos hh, allPairs_cons, allPairs_cons, ih, entryPairs_setInsert_none h]
    · rw [if_neg hh, allPairs_cons, allPairs_cons, ih]

theorem allPairs_insert_none {parse : String → Option Fam} {m : AddrMap}
    {k a : String} (h : parse a = none) :
    allPairs parse (mapInsert m k a) = allPairs parse m := by
  unfold mapInsert
  split
  · exact allPairs_update_none h m
  · rw [allPairs_append]
    simp [allPairs, entryPairs, h]

/-! ## Claim C6 -/

/-- C6: every pair a successful resolver run emits carries an address
accepted by the parser, tagged IPv4 exactly when the parsed address is
IPv4 and IPv6 exactly when it is IPv6; and an address the parser rejects
is silently dropped — inserting it into the map changes neither the
assembled pairs nor the assembly result (in particular it causes no
error by itself). -/
theorem c6_address_validation :
    (∀ (srvQ : List String → Except String (List (String × String)))
       (relQ : List String → Except String (List RelRow))
       (caQ : List String → Except String (List DBAsset))
       (ccQ : String → Except String (List (String × String)))
       (parse : String → Option Fam) (names : List String) (ps : List NameAddrPair),
      NamesToAddrs srvQ relQ caQ ccQ parse names = Except.ok ps →
      ∀ p ∈ ps, ∃ f, parse p.addr.address = some f
        ∧ (p.addr.type = "IPv4" ↔ f = Fam.v4)
        ∧ (p.addr.type = "IPv6" ↔ f = Fam.v6))
    ∧ (∀ (parse : String → Option Fam) (m : AddrMap) (k a : String),
        parse a = none →
        allPairs parse (mapInsert m k a) = allPairs parse m
        ∧ generatePairsFromAddrMap parse (mapInsert m k a)
            = generatePairsFromAddrMap parse m) := by
  constructor
  · intro srvQ relQ caQ ccQ parse names ps h p hp
    obtain ⟨m, _, hg⟩ := namesToAddrs_ok_inv srvQ relQ caQ ccQ parse names ps h
    obtain ⟨rfl, _⟩ := generate_ok hg
    obtain ⟨f, hf, htag⟩ := mem_allPairs hp
    exact ⟨f, hf, by rw [htag]; exact (famTag_iff f).1,
      by rw [htag]; exact (famTag_iff f).2⟩
  · intro parse m k a h
    refine ⟨allPairs_insert_none h, ?_⟩
    unfold generatePairsFromAddrMap
    rw [allPairs_insert_none h]

/-- Witness for C6 at a concrete run and a concrete malformed address. -/
theorem c6_address_validation_witness :
    (∃ f, parseSample "1.2.3.4" = some f
      ∧ (("IPv4" : String) = "IPv4" ↔ f = Fam.v4)
      ∧ (("IPv4" : String) = "IPv6" ↔ f = Fam.v6))
    ∧ allPairs parseSample (mapInsert [] "n.com" "zzz") = allPairs parseSample [] :=
  ⟨c6_address_validation.1 wSrv7 qRelEmpty qCaEmpty qCcEmpty parseSample ["a.com"]
      [NameAddrPair.mk "a.com" (IPAddress.mk "1.2.3.4" "IPv4")] rfl
      (NameAddrPair.mk "a.com" (IPAddress.mk "1.2.3.4" "IPv4")) (by decide),
   (c6_address_validation.2 parseSample [] "n.com" "zzz" rfl).1⟩

/-! ## Helper lemmas: distinctness of assembled pairs -/

theorem entryPairs_map_key (parse : String → Option Fam) (k : String) :
    ∀ v : List String,
    (entryPairs parse k v).map (fun p => (p.fqdn, p.addr.address))
      = (v.filter (fun a => (parse a).isSome)).map (fun a => (k, a)) := by
  intro v
  induction v with
  | nil => rfl
  | cons a t ih =>
    unfold entryPairs at ih ⊢
    rw [List.filterMap_cons, List.filter_cons]
    cases hp : parse a with
    | none => simp [hp, ih]
    | some f => simp [hp, ih]

theorem mem_allPairs_key {parse : String → Option Fam} {p : NameAddrPair} :
    ∀ {m : AddrMap}, p ∈ allPairs parse m → p.fqdn ∈ mapKeys m := by
  intro m
  induction m with
  | nil => intro h; cases h
  | cons e t ih =>
    intro h
    rw [allPairs_cons] at h
    rcases List.mem_append.mp h with h1 | h1
    · have hpe : p.fqdn = e.1 := by
        unfold entryPairs at h1
        rcases List.mem_filterMap.mp h1 with ⟨a, ha, hg⟩
        cases hp2 : parse a with
        | none => rw [hp2] at hg; cases hg
        | some f => simp only [hp2] at hg; cases hg; rfl
      rw [mapKeys_cons]
      exact List.mem_cons.mpr (Or.inl hpe)
    · rw [mapKeys_cons]
      exact List.mem_cons.mpr (Or.inr (ih h1))

theorem allPairs_key_nodup (parse : String → Option Fam) :
    ∀ m : AddrMap, MapInv m →
    ((allPairs parse m).map (fun p => (p.fqdn, p.addr.address))).Nodup := by
  intro m
  induction m with
  | nil => intro _; simp [allPairs]
  | cons e t ih =>
    intro hinv
    obtain ⟨hkeys, hvals⟩ := hinv
    rw [mapKeys_cons] at hkeys
    have hk1 : e.1 ∉ mapKeys t := (List.nodup_cons.mp hkeys).1
    have hkt : (mapKeys t).Nodup := (List.nodup_cons.mp hkeys).2
    have hvt : ∀ x ∈ t, x.2.Nodup := fun x hx => hvals x (List.mem_cons_of_mem e hx)
    have hve : e.2.Nodup := hvals e (List.mem_cons_self _ _)
    rw [allPairs_cons, List.map_append]
    refine List.nodup_append.mpr ⟨?_, ih ⟨hkt, hvt⟩, ?_⟩
    · rw [entryPairs_map_key]
      refine List.Nodup.map ?_ (hve.filter _)
      intro x y hxy
      exact ((Prod.mk.injEq _ _ _ _).mp hxy).2
    · intro x hx1 hx2
      rw [entryPairs_map_key] at hx1
      rcases List.mem_map.mp hx1 with ⟨a, ha, rfl⟩
      rcases List.mem_map.mp hx2 with ⟨q, hq, hqk⟩
      have hqe : q.fqdn = e.1 := congrArg Prod.fst hqk
      exact hk1 (hqe ▸ mem_allPairs_key hq)

/-! ## Claim C5 -/

/-- C5: a successful resolver run never contains two entries with the
same (hostname, address) pair — the address sets are deduplicated per
name and each name owns one map entry, so duplicate discovery paths
collapse to one result. -/
theorem c5_unique_pairs
    (srvQ : List String → Except String (List (String × String)))
    (relQ : List String → Except String (List RelRow))
    (caQ : List String → Except String (List DBAsset))
    (ccQ : String → Except String (List (String × String)))
    (parse : String → Option Fam) (names : List String) (ps : List NameAddrPair)
    (h : NamesToAddrs srvQ relQ caQ ccQ parse names = Except.ok ps) :
    (ps.map (fun p => (p.fqdn, p.addr.address))).Nodup := by
  obtain ⟨m, hinv, hg⟩ := namesToAddrs_ok_inv srvQ relQ caQ ccQ parse names ps h
  obtain ⟨rfl, _⟩ := generate_ok hg
  exact allPairs_key_nodup parse m hinv

/-- Witness for C5 at a concrete run. -/
theorem c5_unique_pairs_witness :
    (([NameAddrPair.mk "a.com" (IPAddress.mk "1.2.3.4" "IPv4")]).map
        (fun p => (p.fqdn, p.addr.address))).Nodup :=
  c5_unique_pairs wSrv7 qRelEmpty qCaEmpty qCcEmpty parseSample ["a.com"]
    [NameAddrPair.mk "a.com" (IPAddress.mk "1.2.3.4" "IPv4")] rfl

/-! ## Claim C1 -/

/-- C1 as written is false on the code: for an AutnumRecord whose ASN
projection and organization projection both match, `IsAssetInScope` does
not return the stronger (maximum) of the two accuracies; it returns the
first projection's accuracy even when the organization projection is
stronger.  In this registry the ASN matcher reports accuracy 3, the
organization matcher accuracy 10, yet the dispatch returns 3. -/
def scopeCex1 : Scope :=
  Scope.mk
    (fun _ => (none, 0))
    (fun _ => (none, 0))
    (fun _ _ => (none, 0))
    (fun _ => (some (OAMAsset.autnum 7), 3))
    (fun o _ => (some (OAMAsset.organization o), 10))
    (fun _ _ => (none, 0))
    (fun _ => (none, 0))

/-- Counterexample to C1: both projections of the AutnumRecord match, the
maximum of the two accuracies is 10, but `IsAssetInScope` returns 3. -/
theorem c1_counterexample :
    properMatch (scopeCex1.matchesAutonomousSystem 7)
    ∧ properMatch (scopeCex1.matchesOrg "acme" 0)
    ∧ (IsAssetInScope scopeCex1 (OAMAsset.autnumRecord 7 "acme") 0).2 = 3
    ∧ max (scopeCex1.matchesAutonomousSystem 7).2 (scopeCex1.matchesOrg "acme" 0).2 = 10
    ∧ (IsAssetInScope scopeCex1 (OAMAsset.autnumRecord 7 "acme") 0).2 ≠
        max (scopeCex1.matchesAutonomousSystem 7).2 (scopeCex1.matchesOrg "acme" 0).2 := by
  refine ⟨⟨rfl, by decide⟩, ⟨rfl, by decide⟩, rfl, by decide, by decide⟩

/-- C1 amended: for a DomainRecord or AutnumRecord carrying both
projections, `IsAssetInScope` reports a match exactly when either
projection matches, and the accuracy it returns is the primary
projection's (domain resp. ASN) whenever that projection matches, falling
back to the organization projection's result otherwise — not the maximum
of the two. -/
theorem c1_composite_fallback (s : Scope) (d o : String) (num conf : Int) :
    (IsAssetInScope s (OAMAsset.domainRecord d o) conf
      = (if (s.matchesDomain d).1.isNone || (s.matchesDomain d).2 == 0
         then s.matchesOrg o conf else s.matchesDomain d))
    ∧ (IsAssetInScope s (OAMAsset.autnumRecord num o) conf
      = (if (s.matchesAutonomousSystem num).1.isNone || (s.matchesAutonomousSystem num).2 == 0
         then s.matchesOrg o conf else s.matchesAutonomousSystem num))
    ∧ (properMatch (IsAssetInScope s (OAMAsset.domainRecord d o) conf)
        ↔ properMatch (s.matchesDomain d) ∨ properMatch (s.matchesOrg o conf))
    ∧ (properMatch (IsAssetInScope s (OAMAsset.autnumRecord num o) conf)
        ↔ properMatch (s.matchesAutonomousSystem num) ∨ properMatch (s.matchesOrg o conf)) :=
  ⟨rfl, rfl,
   fallback_proper (s.matchesDomain d) (s.matchesOrg o conf),
   fallback_proper (s.matchesAutonomousSystem num) (s.matchesOrg o conf)⟩

/-! ## Claim C8 -/

/-- C8: `isBadField` is true exactly when the field contains one of the
nine noisy substrings (plain substring containment, with no token
boundaries), and the organization/location matchers consult only fields
it does not flag. -/
theorem c8_noisy_field (field : String) (fields : List String) :
    (isBadField field = true ↔ ∃ b, b ∈ badstrs ∧ ∃ l r, field.data = l ++ b.data ++ r)
    ∧ (∀ f, f ∈ matchingFields fields → isBadField f = false) := by
  constructor
  · simp only [isBadField, List.any_eq_true, strContains, charsWithin_iff]
  · intro f hf
    simp only [matchingFields, List.mem_filter, Bool.not_eq_eq_eq_not, Bool.not_true] at hf
    exact hf.2

/-- Witness for C8 at concrete inputs: a field containing `domain` with
no token boundary is flagged, and an unflagged field survives
`matchingFields`. -/
theorem c8_noisy_field_witness :
    isBadField "subdomainx" = true ∧ isBadField "alpha" = false :=
  ⟨(c8_noisy_field "subdomainx" []).1.mpr
      ⟨"domain", by decide, "sub".data, "x".data, by decide⟩,
   (c8_noisy_field "alpha" ["alpha"]).2 "alpha" (by decide)⟩

/-! ## Claim C9 -/

/-- C9: an asset whose kind is not handled by the `IsAssetInScope` type
switch yields `(nil, 0)` for every confidence floor. -/
theorem c9_unhandled_kind (s : Scope) (conf : Int) (kindTag : String) :
    IsAssetInScope s (OAMAsset.other kindTag) conf = (none, 0) := rfl

/-! ## Claim C10 -/

/-- C10: the scrape plugins' check callback reaches its discovery work
exactly when the scope match for the event FQDN is itself an FQDN whose
name equals the event name case-insensitively; an FQDN event that is in
scope only through a non-exact match is skipped (the callback returns nil
without discovery). -/
theorem c10_exact_match_gate (s : Scope) (name : String) :
    (checkOutcome s (OAMAsset.fqdn name) = CheckOutcome.discovery
      ↔ ∃ fn, (IsAssetInScope s (OAMAsset.fqdn name) 0).1 = some (OAMAsset.fqdn fn)
          ∧ (IsAssetInScope s (OAMAsset.fqdn name) 0).2 ≠ 0
          ∧ eqFold name fn = true)
    ∧ (checkOutcome s (OAMAsset.fqdn name) = CheckOutcome.discovery
        ∨ checkOutcome s (OAMAsset.fqdn name) = CheckOutcome.skipped) :=
  ⟨gate_discovery_iff name (IsAssetInScope s (OAMAsset.fqdn name) 0),
   gate_total name (IsAssetInScope s (OAMAsset.fqdn name) 0)⟩

end Amass
